import Mathlib

/-!
Shallow embedding of `src/remote_mem.rs` (cross-process memory load/store
via `process_vm_readv` / `process_vm_writev`).

Remote memory is modelled as a byte function `Nat → Nat`.  The OS transfer
facility is modelled by an oracle (`OS`) that, for each request, either fails
(the `process_vm_*` call returns an error) or reports how many bytes it moved.
Typed values of a `Sized + Copy` type `T` are modelled by their byte
representation, a `List Nat` of length `size_of::<T>()`.

Rust assertions and slice-index panics are modelled by a dedicated `Panic`
outcome; `Result<_, Error>` is modelled by `Except Error _` (the payload of
`Error::Rw` is opaque and dropped).  Every operation additionally returns the
trace of OS-level transfer calls it issued (`Event`), and stores return the
updated remote memory.
-/

/-- `const ALG: usize = 8`, the assumed atomic access width. -/
def ALG : Nat := 8

/-- Remote memory: the byte stored at each remote address. -/
abbrev Mem := Nat → Nat

/-- The error type of `remote_mem.rs`.  `Rw` is `Error::Rw(nix::Error)` with
the underlying OS error dropped; `ByteCount` carries actual/expected counts. -/
inductive Error where
  | Rw : Error
  | ByteCount (is should : Nat) : Error
deriving DecidableEq

/-- Reasons a call can panic: the `assert!(len <= ALG)` size assertion, the
window-containment assertion in `process_load`, and the slice-indexing panic
`data[offset..offset+len]` in `process_store`. -/
inductive Panic where
  | assertLenLeAlg : Panic
  | assertContainment : Panic
  | sliceIndex : Panic
deriving DecidableEq

/-- Result of a call: normal return, `Err` return, or a Rust panic. -/
inductive Outcome (α : Type) where
  | ok : α → Outcome α
  | err : Error → Outcome α
  | panic : Panic → Outcome α
deriving DecidableEq

/-- One OS-level transfer call: `process_vm_readv` or `process_vm_writev`,
with the remote base address and requested length. -/
inductive Event where
  | readv (addr len : Nat) : Event
  | writev (addr len : Nat) : Event
deriving DecidableEq

/-- The environment: remote memory plus the OS oracle.  `readResult a n`
(resp. `writeResult a n`) is the outcome of a `process_vm_readv`
(`process_vm_writev`) for `n` bytes at remote address `a`: `Except.error` if
the syscall fails, `Except.ok moved` if it reports `moved` bytes transferred. -/
structure OS where
  mem : Mem
  readResult : Nat → Nat → Except Unit Nat
  writeResult : Nat → Nat → Except Unit Nat

/-- Rust `addr.align_offset(a)` for a byte pointer: bytes to add to reach the
next `a`-aligned address. -/
def alignOffset (addr a : Nat) : Nat := (a - addr % a) % a

/-- The offset computed by `process_load`:
`let offset = ALG - addr.align_offset(ALG)`. -/
def loadOffset (addr : Nat) : Nat := ALG - alignOffset addr ALG

/-- The bytes of remote memory in `[addr, addr+len)`. -/
def readBytes (mem : Mem) (addr len : Nat) : List Nat :=
  (List.range len).map (fun i => mem (addr + i))

/-- Effect of a (possibly short) write on remote memory: the first `count`
bytes of `bytes` land at `addr`. -/
def writeBytesMem (mem : Mem) (addr : Nat) (bytes : List Nat) (count : Nat) : Mem :=
  fun i =>
    if addr ≤ i ∧ i < addr + min count bytes.length then bytes.getD (i - addr) 0 else mem i

/-- `process_read_bytes`: issues one `process_vm_readv` and returns the byte
count the OS reports (or `Error::Rw`). -/
def process_read_bytes (os : OS) (addr len : Nat) : Except Error Nat × List Event :=
  ((match os.readResult addr len with
    | Except.error _ => Except.error Error.Rw
    | Except.ok moved => Except.ok moved),
   [Event.readv addr len])

/-- `process_read::<T>`: reads `size_of::<T>()` = `len` bytes via
`process_read_bytes`; a short read yields `Error::ByteCount` and never
`assume_init`s a value.  On an exact-length success the value is the byte
content of remote memory at `[addr, addr+len)`. -/
def process_read (os : OS) (addr len : Nat) : Except Error (List Nat) × List Event :=
  ((match (process_read_bytes os addr len).1 with
    | Except.error e => Except.error e
    | Except.ok moved =>
        if moved ≠ len then Except.error (Error.ByteCount moved len)
        else Except.ok (readBytes os.mem addr len)),
   (process_read_bytes os addr len).2)

/-- `process_write_bytes`: issues one `process_vm_writev`; on success the
reported prefix of `val` is written to remote memory at `addr`. -/
def process_write_bytes (os : OS) (addr : Nat) (val : List Nat) :
    Except Error Nat × Mem × List Event :=
  match os.writeResult addr val.length with
  | Except.error _ => (Except.error Error.Rw, os.mem, [Event.writev addr val.length])
  | Except.ok moved =>
      (Except.ok moved, writeBytesMem os.mem addr val moved, [Event.writev addr val.length])

/-- `process_write::<T>`: writes the byte view of `val` and fails with
`Error::ByteCount` when fewer than `val.length` bytes were written. -/
def process_write (os : OS) (addr : Nat) (val : List Nat) :
    Except Error Unit × Mem × List Event :=
  match process_write_bytes os addr val with
  | (Except.error e, m, tr) => (Except.error e, m, tr)
  | (Except.ok moved, m, tr) =>
      if moved ≠ val.length then (Except.error (Error.ByteCount moved val.length), m, tr)
      else (Except.ok (), m, tr)

/-- `process_load::<T>` with `len = size_of::<T>()`.  Mirrors the source:
first the debug read `let foo: T = process_read(pid, addr)?`, then
`assert!(len <= ALG)`, then `offset = ALG - addr.align_offset(ALG)`,
`aligned = addr - offset`, the containment assertion
`addr + len <= aligned + ALG`, the 8-byte window read at `aligned`, and the
copy of `data[offset..offset+len]` into the result. -/
def process_load (os : OS) (addr len : Nat) : Outcome (List Nat) × List Event :=
  match process_read os addr len with
  | (Except.error e, tr1) => (Outcome.err e, tr1)
  | (Except.ok _foo, tr1) =>
    if len ≤ ALG then
      let offset := loadOffset addr
      let aligned := addr - offset
      if addr + len ≤ aligned + ALG then
        match process_read os aligned ALG with
        | (Except.error e, tr2) => (Outcome.err e, tr1 ++ tr2)
        | (Except.ok data, tr2) => (Outcome.ok ((data.drop offset).take len), tr1 ++ tr2)
      else (Outcome.panic Panic.assertContainment, tr1)
    else (Outcome.panic Panic.assertLenLeAlg, tr1)

/-- `process_store::<T>` with `val` the byte view of the value
(`val.length = size_of::<T>()`).  Mirrors the source: `assert!(len <= ALG)`,
`offset = addr.align_offset(ALG)`, `aligned = addr.add(offset)` (the
containment assertion is commented out in the source), an 8-byte window read
at `aligned`, the splice `data[offset..offset+len].copy_from_slice(val)`
(which panics when `offset+len > 8`), and finally
`process_write(pid, addr, &data)` — note the write goes to `addr`. -/
def process_store (os : OS) (addr : Nat) (val : List Nat) :
    Outcome Unit × Mem × List Event :=
  let len := val.length
  if len ≤ ALG then
    let offset := alignOffset addr ALG
    let aligned := addr + offset
    match process_read os aligned ALG with
    | (Except.error e, tr1) => (Outcome.err e, os.mem, tr1)
    | (Except.ok data, tr1) =>
      if offset + len ≤ ALG then
        let data2 := data.take offset ++ val ++ data.drop (offset + len)
        match process_write os addr data2 with
        | (Except.error e, m, tr2) => (Outcome.err e, m, tr1 ++ tr2)
        | (Except.ok _, m, tr2) => (Outcome.ok (), m, tr1 ++ tr2)
      else (Outcome.panic Panic.sliceIndex, os.mem, tr1)
  else (Outcome.panic Panic.assertLenLeAlg, os.mem, [])

/-- An OS whose transfer calls always succeed and move the full requested
length (the "full-length OS transfers, no failure" assumption). -/
def fullOS (mem : Mem) : OS :=
  { mem := mem
    readResult := fun _ n => Except.ok n
    writeResult := fun _ n => Except.ok n }

/-- Concrete remote memory used in counterexamples: byte `(100 + i) % 256`
at address `i`. -/
def mem1 : Mem := fun i => (100 + i) % 256

/-- Concrete full-transfer environment over `mem1`. -/
def os1 : OS := fullOS mem1

/-- Concrete environment with short transfers: a readv at address 3 moves
only 1 byte, a writev at address 3 moves only 1 byte, a writev at address 14
moves only 2 bytes; everything else transfers in full. -/
def osShort : OS :=
  { mem := mem1
    readResult := fun a n => if a = 3 then Except.ok 1 else Except.ok n
    writeResult := fun a _ => if a = 3 then Except.ok 1 else Except.ok 2 }

/-! ## Helper lemmas -/

theorem readBytes_length (mem : Mem) (addr len : Nat) :
    (readBytes mem addr len).length = len := by
  simp [readBytes]

theorem process_read_trace (os : OS) (addr len : Nat) :
    (process_read os addr len).2 = [Event.readv addr len] := rfl

theorem process_write_trace (os : OS) (addr : Nat) (val : List Nat) :
    (process_write os addr val).2.2 = [Event.writev addr val.length] := by
  unfold process_write process_write_bytes
  rcases h : os.writeResult addr val.length with e | moved
  · simp [h]
  · simp only [h]
    split <;> rfl

theorem process_read_full (os : OS) (addr len : Nat)
    (hr : os.readResult addr len = Except.ok len) :
    process_read os addr len = (Except.ok (readBytes os.mem addr len), [Event.readv addr len]) := by
  unfold process_read process_read_bytes
  simp [hr]

theorem process_load_panics (os : OS) (addr len : Nat)
    (hr : os.readResult addr len = Except.ok len) (hlen : len ≤ ALG)
    (hc : ¬ addr + len ≤ addr - loadOffset addr + ALG) :
    (process_load os addr len).1 = Outcome.panic Panic.assertContainment := by
  unfold process_load
  rw [process_read_full os addr len hr]
  simp [hlen, hc]

/-! ## Claim theorems -/

/-- C1: the round-trip property fails on the code.  With remote memory
`mem1`, full-length transfers, a 4-byte value `[1,2,3,4]` and address 12
(12 mod 8 = 4): `process_store` succeeds, but a subsequent `process_load`
at the same address returns `[116,117,118,119]` (the bytes that were at
addresses 16..20 before the store), not the stored value. -/
theorem roundtrip_fails_at_addr12 :
    (process_store os1 12 [1, 2, 3, 4]).1 = Outcome.ok () ∧
    (process_load (fullOS (process_store os1 12 [1, 2, 3, 4]).2.1) 12 4).1
      = Outcome.ok [116, 117, 118, 119] ∧
    (Outcome.ok [116, 117, 118, 119] : Outcome (List Nat)) ≠ Outcome.ok [1, 2, 3, 4] := by
  decide

/-- C3: non-destructive store fails on the code.  With remote memory `mem1`,
storing the 1-byte value `[42]` at address 13 (13 mod 8 = 5) succeeds, yet
address 14 — inside the containing atomic window [8,16) of address 13 and
outside the stored range [13,14) — changes from 114 to 117. -/
theorem store_clobbers_window_byte_at_addr13 :
    (process_store os1 13 [42]).1 = Outcome.ok () ∧
    (13 : Nat) % ALG ≠ 0 ∧
    13 - 13 % ALG = 8 ∧ 8 ≤ 14 ∧ (14 : Nat) < 8 + ALG ∧
    ¬((13 : Nat) ≤ 14 ∧ (14 : Nat) < 13 + 1) ∧
    os1.mem 14 = 114 ∧
    (process_store os1 13 [42]).2.1 14 = 117 := by
  decide

/-- C2 counterexample: storing the 1-byte value `[42]` at address 1 issues
its final `process_vm_writev` with base address 1 (the original `addr`),
not the aligned window start `addr + align_offset = 8`. -/
theorem store_write_target_cex :
    (process_store os1 1 [42]).2.2 = [Event.readv 8 8, Event.writev 1 8] ∧
    1 + alignOffset 1 ALG = 8 ∧
    Event.writev 1 8 ≠ Event.writev 8 8 := by
  decide

/-- C4 counterexample: at address 8 with a 1-byte value (size 1 ≤ 8), the
window computed by `process_load` starts at `8 - loadOffset 8 = 0`, which is
8-aligned but does not contain [8, 9): containment is violated although
`size_of(T) ≤ 8`, and the load panics on the containment assertion. -/
theorem window_containment_cex :
    (1 : Nat) ≤ ALG ∧
    (8 - loadOffset 8) % ALG = 0 ∧
    ¬(8 + 1 ≤ (8 - loadOffset 8) + ALG) ∧
    (process_load os1 8 1).1 = Outcome.panic Panic.assertContainment := by
  decide

/-- C5 counterexample: at address 9 the offset computed by `process_load`
is `loadOffset 9 = 1`, whereas the formula `atomic_width - (addr mod
atomic_width)` claimed by the spec gives `8 - 9 % 8 = 7`. -/
theorem load_offset_formula_cex :
    loadOffset 9 = 1 ∧ ALG - 9 % ALG = 7 ∧ loadOffset 9 ≠ ALG - 9 % ALG := by
  decide

/-- C7 counterexample: the successful `process_load` at address 9 (4-byte
value, full transfers) issues two `process_vm_readv` calls — the debug read
at `addr` and the window read at `aligned` — not exactly one. -/
theorem load_two_transfers_cex :
    (process_load os1 9 4).1 = Outcome.ok [109, 110, 111, 112] ∧
    (process_load os1 9 4).2 = [Event.readv 9 4, Event.readv 8 8] ∧
    (process_load os1 9 4).2.length ≠ 1 := by
  decide

/-- C5 (amended): the offset computed by `process_load` is `addr mod 8` for
unaligned `addr` (the backward distance to the 8-aligned boundary at or
before `addr`) and `8` — not `0` — when `addr` is already aligned; it does
not equal `8 - (addr mod 8)` in general. -/
theorem load_offset_characterization (addr : Nat) :
    loadOffset addr = if addr % ALG = 0 then ALG else addr % ALG := by
  unfold loadOffset alignOffset ALG
  split <;> omega

/-- C8: with a 4-byte value at any address `a` with `a mod 8 = 5` (and the
initial debug read succeeding in full), `process_load` fails the
window-containment assertion `addr + len <= aligned + ALG` and panics,
rather than returning a misread value. -/
theorem scenario_a_assertion_fails (os : OS) (addr : Nat)
    (hr : os.readResult addr 4 = Except.ok 4) (h5 : addr % 8 = 5) :
    (process_load os addr 4).1 = Outcome.panic Panic.assertContainment := by
  have hoff : loadOffset addr = 5 := by
    unfold loadOffset alignOffset ALG; omega
  refine process_load_panics os addr 4 hr (by decide) ?_
  rw [hoff]
  unfold ALG
  omega

/-- C8 witness: address 13 (13 mod 8 = 5) under full transfers. -/
theorem scenario_a_assertion_fails_witness :
    (process_load os1 13 4).1 = Outcome.panic Panic.assertContainment :=
  scenario_a_assertion_fails os1 13 rfl (by decide)

/-- C9: at every 8-aligned address `addr ≥ 8` and every size `0 < len ≤ 8`,
`process_load` panics on the containment assertion (the computed offset is
8, so the check reduces to `len ≤ 0`), hence it never returns a value at an
aligned address. -/
theorem aligned_load_panics (os : OS) (addr len : Nat)
    (ha : ALG ≤ addr) (h8 : addr % ALG = 0) (h0 : 0 < len) (hlen : len ≤ ALG)
    (hr : os.readResult addr len = Except.ok len) :
    (process_load os addr len).1 = Outcome.panic Panic.assertContainment ∧
    ∀ bs, (process_load os addr len).1 ≠ Outcome.ok bs := by
  have hoff : loadOffset addr = ALG := by
    unfold loadOffset alignOffset ALG
    unfold ALG at h8
    omega
  have hp : (process_load os addr len).1 = Outcome.panic Panic.assertContainment := by
    refine process_load_panics os addr len hr hlen ?_
    rw [hoff]
    unfold ALG at ha ⊢
    omega
  exact ⟨hp, fun bs h => by rw [hp] at h; exact Outcome.noConfusion h⟩

/-- C9 witness: address 8 with a 1-byte value under full transfers. -/
theorem aligned_load_panics_witness :
    (process_load os1 8 1).1 = Outcome.panic Panic.assertContainment :=
  (aligned_load_panics os1 8 1 (by decide) (by decide) (by decide) (by decide) rfl).1

theorem loadOffset_eq (addr : Nat) :
    loadOffset addr = if addr % ALG = 0 then ALG else addr % ALG := by
  unfold loadOffset alignOffset ALG
  split <;> omega

theorem splice_length (data val : List Nat) (offset : Nat)
    (hd : data.length = ALG) (h : offset + val.length ≤ ALG) :
    (data.take offset ++ val ++ data.drop (offset + val.length)).length = ALG := by
  simp only [List.length_append, List.length_take, List.length_drop, hd]
  unfold ALG at *
  omega

/-- C10: for every unaligned address (`addr mod 8 ≠ 0`) with
`align_offset(addr) + size_of(T) > 8`, once the window read succeeds,
`process_store` panics at the slice splice `data[offset..offset+len]`
(no containment assertion guards it); the overflow condition is equivalent
to `size_of(T) > addr mod 8`. -/
theorem unaligned_store_splice_panics (os : OS) (addr len : Nat) (val : List Nat)
    (hval : val.length = len) (hlen : len ≤ ALG)
    (hu : addr % ALG ≠ 0) (hgt : ALG < alignOffset addr ALG + len)
    (hra : os.readResult (addr + alignOffset addr ALG) ALG = Except.ok ALG) :
    (process_store os addr val).1 = Outcome.panic Panic.sliceIndex ∧
    (ALG < alignOffset addr ALG + len ↔ addr % ALG < len) := by
  constructor
  · simp only [process_store, hval]
    rw [if_pos hlen, process_read_full os (addr + alignOffset addr ALG) ALG hra]
    simp only
    rw [if_neg (by omega)]
  · unfold alignOffset ALG at *
    omega

/-- C10 witness: a 2-byte value at address 9 (9 mod 8 = 1 < 2) under full
transfers. -/
theorem unaligned_store_splice_panics_witness :
    (process_store os1 9 [1, 2]).1 = Outcome.panic Panic.sliceIndex ∧
    (ALG < alignOffset 9 ALG + 2 ↔ 9 % ALG < 2) :=
  unaligned_store_splice_panics os1 9 2 [1, 2] rfl (by decide) (by decide) (by decide) rfl

/-- C4 (amended): for every `addr ≥ 8` and `0 < len ≤ 8` the window computed
by `process_load` starts at a multiple of 8, but it contains
`[addr, addr+len)` exactly when `addr mod 8 ≠ 0` and `addr mod 8 + len ≤ 8`;
in every other case — which includes aligned addresses and unaligned ones
with `addr mod 8 + len > 8`, not only `len > 8` — the containment assertion
fails and the load panics rather than silently misreading. -/
theorem load_window_invariant (os : OS) (addr len : Nat)
    (ha : ALG ≤ addr) (h0 : 0 < len) (hlen : len ≤ ALG)
    (hr : os.readResult addr len = Except.ok len) :
    (addr - loadOffset addr) % ALG = 0 ∧
    (addr + len ≤ (addr - loadOffset addr) + ALG ↔
      (addr % ALG ≠ 0 ∧ addr % ALG + len ≤ ALG)) ∧
    (¬(addr % ALG ≠ 0 ∧ addr % ALG + len ≤ ALG) →
      (process_load os addr len).1 = Outcome.panic Panic.assertContainment) := by
  have hoff := loadOffset_eq addr
  refine ⟨?_, ?_, ?_⟩
  · unfold ALG at *
    split at hoff <;> omega
  · unfold ALG at *
    split at hoff <;> omega
  · intro h
    refine process_load_panics os addr len hr hlen ?_
    unfold ALG at *
    split at hoff <;> omega

/-- C4 witness: address 13 with a 4-byte value (13 mod 8 = 5, 5 + 4 > 8):
the window start 8 is aligned, containment fails, and the load panics. -/
theorem load_window_invariant_witness :
    (13 - loadOffset 13) % ALG = 0 ∧
    (process_load os1 13 4).1 = Outcome.panic Panic.assertContainment := by
  have h := load_window_invariant os1 13 4 (by decide) (by decide) (by decide) rfl
  exact ⟨h.1, h.2.2 (by decide)⟩

theorem process_store_full_read (os : OS) (addr : Nat) (val : List Nat)
    (hlen : val.length ≤ ALG) (hoff : alignOffset addr ALG + val.length ≤ ALG)
    (hra : os.readResult (addr + alignOffset addr ALG) ALG = Except.ok ALG) :
    process_store os addr val =
      (match process_write os addr
          (List.take (alignOffset addr ALG) (readBytes os.mem (addr + alignOffset addr ALG) ALG)
            ++ val
            ++ List.drop (alignOffset addr ALG + val.length)
                 (readBytes os.mem (addr + alignOffset addr ALG) ALG)) with
        | (Except.error e, m, tr2) =>
            (Outcome.err e, m, [Event.readv (addr + alignOffset addr ALG) ALG] ++ tr2)
        | (Except.ok _, m, tr2) =>
            (Outcome.ok (), m, [Event.readv (addr + alignOffset addr ALG) ALG] ++ tr2)) := by
  simp only [process_store]
  rw [if_pos hlen, process_read_full os (addr + alignOffset addr ALG) ALG hra]
  simp only
  rw [if_pos hoff]

theorem store_trace_full (os : OS) (addr : Nat) (val : List Nat)
    (hlen : val.length ≤ ALG) (hoff : alignOffset addr ALG + val.length ≤ ALG)
    (hra : os.readResult (addr + alignOffset addr ALG) ALG = Except.ok ALG) :
    (process_store os addr val).2.2 =
      [Event.readv (addr + alignOffset addr ALG) ALG, Event.writev addr ALG] := by
  rw [process_store_full_read os addr val hlen hoff hra]
  set data := readBytes os.mem (addr + alignOffset addr ALG) ALG with hdata
  set d2 := List.take (alignOffset addr ALG) data ++ val
      ++ List.drop (alignOffset addr ALG + val.length) data with hd2
  have hl2 : d2.length = ALG := by
    rw [hd2]
    exact splice_length data val (alignOffset addr ALG) (readBytes_length _ _ _) hoff
  rcases hw : process_write os addr d2 with ⟨res, m, tr2⟩
  have htr2 := process_write_trace os addr d2
  rw [hw] at htr2
  rcases res with e | u <;> simp_all

/-- C2 (amended): once the window read succeeds in full, `process_store`
issues its final `process_vm_writev` of the whole modified 8-byte window
with base address `addr` — the original, possibly unaligned address — not
the aligned window start `addr + align_offset`. -/
theorem store_write_targets_addr (os : OS) (addr : Nat) (val : List Nat)
    (hlen : val.length ≤ ALG) (hoff : alignOffset addr ALG + val.length ≤ ALG)
    (hra : os.readResult (addr + alignOffset addr ALG) ALG = Except.ok ALG) :
    (process_store os addr val).2.2 =
      [Event.readv (addr + alignOffset addr ALG) ALG, Event.writev addr ALG] :=
  store_trace_full os addr val hlen hoff hra

/-- C2 witness: storing a 1-byte value at address 1 under full transfers. -/
theorem store_write_targets_addr_witness :
    (process_store os1 1 [42]).2.2 = [Event.readv (1 + alignOffset 1 ALG) ALG, Event.writev 1 ALG] :=
  store_write_targets_addr os1 1 [42] (by decide) (by decide) rfl

/-- C6: short-transfer detection.  If a `process_vm_readv` moves `m ≠ len`
bytes, `process_read` returns `Err(Error::ByteCount { is: m, should: len })`
and never produces a value, and `process_load` propagates that error
unchanged; if a `process_vm_writev` is short, `process_write` returns the
corresponding byte-count error, and a short window write-back makes
`process_store` surface `Err(Error::ByteCount { is: mw, should: 8 })`. -/
theorem short_transfer_detection (os : OS) (addrR addrS len m mw : Nat)
    (val valS : List Nat)
    (hval : val.length = len) (hvalS : valS.length ≤ ALG)
    (hr : os.readResult addrR len = Except.ok m) (hm : m ≠ len)
    (hw : os.writeResult addrR len = Except.ok m)
    (hoffS : alignOffset addrS ALG + valS.length ≤ ALG)
    (hra : os.readResult (addrS + alignOffset addrS ALG) ALG = Except.ok ALG)
    (hws : os.writeResult addrS ALG = Except.ok mw) (hmw : mw ≠ ALG) :
    (process_read os addrR len).1 = Except.error (Error.ByteCount m len) ∧
    (∀ bs, (process_read os addrR len).1 ≠ Except.ok bs) ∧
    (process_load os addrR len).1 = Outcome.err (Error.ByteCount m len) ∧
    (process_write os addrR val).1 = Except.error (Error.ByteCount m len) ∧
    (process_store os addrS valS).1 = Outcome.err (Error.ByteCount mw ALG) := by
  have hread : (process_read os addrR len).1 = Except.error (Error.ByteCount m len) := by
    unfold process_read process_read_bytes
    simp [hr, hm]
  refine ⟨hread, ?_, ?_, ?_, ?_⟩
  · intro bs h
    rw [hread] at h
    exact Except.noConfusion h
  · unfold process_load
    rcases hp : process_read os addrR len with ⟨r1, t1⟩
    rw [hp] at hread
    simp only at hread
    simp [hread]
  · unfold process_write process_write_bytes
    rw [hval, hw]
    simp [hm]
  · rw [process_store_full_read os addrS valS hvalS hoffS hra]
    set data := readBytes os.mem (addrS + alignOffset addrS ALG) ALG with hdata
    set d2 := List.take (alignOffset addrS ALG) data ++ valS
        ++ List.drop (alignOffset addrS ALG + valS.length) data with hd2
    have hl2 : d2.length = ALG := by
      rw [hd2]
      exact splice_length data valS (alignOffset addrS ALG) (readBytes_length _ _ _) hoffS
    have hwres : (process_write os addrS d2).1 = Except.error (Error.ByteCount mw ALG) := by
      unfold process_write process_write_bytes
      rw [hl2, hws]
      simp [hmw, hl2]
    rcases hp : process_write os addrS d2 with ⟨res, mm, tr⟩
    rw [hp] at hwres
    simp only at hwres
    simp [hwres]

/-- C6 witness: under `osShort`, the readv at address 3 moves 1 of 2 bytes
and the window write at address 14 moves 2 of 8 bytes; all four operations
surface the matching byte-count errors. -/
theorem short_transfer_detection_witness :
    (process_read osShort 3 2).1 = Except.error (Error.ByteCount 1 2) ∧
    (process_load osShort 3 2).1 = Outcome.err (Error.ByteCount 1 2) ∧
    (process_write osShort 3 [7, 7]).1 = Except.error (Error.ByteCount 1 2) ∧
    (process_store osShort 14 [7, 7]).1 = Outcome.err (Error.ByteCount 2 ALG) := by
  have h := short_transfer_detection osShort 3 14 2 1 2 [7, 7] [7, 7]
    rfl (by decide) rfl (by decide) rfl (by decide) rfl rfl (by decide)
  exact ⟨h.1, h.2.2.1, h.2.2.2.1, h.2.2.2.2⟩

theorem process_load_full_read (os : OS) (addr len : Nat)
    (hr : os.readResult addr len = Except.ok len) (hlen : len ≤ ALG)
    (hc : addr + len ≤ addr - loadOffset addr + ALG)
    (hr2 : os.readResult (addr - loadOffset addr) ALG = Except.ok ALG) :
    process_load os addr len =
      (Outcome.ok
        (((readBytes os.mem (addr - loadOffset addr) ALG).drop (loadOffset addr)).take len),
       [Event.readv addr len, Event.readv (addr - loadOffset addr) ALG]) := by
  unfold process_load
  rw [process_read_full os addr len hr]
  simp only
  rw [if_pos hlen, if_pos hc, process_read_full os (addr - loadOffset addr) ALG hr2]
  simp

theorem process_load_trace_len (os : OS) (a l : Nat) :
    (process_load os a l).2.length ≤ 2 := by
  unfold process_load
  rcases hp : process_read os a l with ⟨r1, t1⟩
  have ht1 : t1 = [Event.readv a l] := by
    have h := process_read_trace os a l
    rw [hp] at h
    exact h
  rcases r1 with e | d
  · simp [ht1]
  · simp only
    split
    · split
      · rcases hp2 : process_read os (a - loadOffset a) ALG with ⟨r2, t2⟩
        have ht2 : t2 = [Event.readv (a - loadOffset a) ALG] := by
          have h := process_read_trace os (a - loadOffset a) ALG
          rw [hp2] at h
          exact h
        rcases r2 with e2 | d2 <;> simp [ht1, ht2]
      · simp [ht1]
    · simp [ht1]

theorem process_store_trace_len (os : OS) (a : Nat) (v : List Nat) :
    (process_store os a v).2.2.length ≤ 2 := by
  unfold process_store
  simp only
  split
  · rcases hp : process_read os (a + alignOffset a ALG) ALG with ⟨r1, t1⟩
    have ht1 : t1 = [Event.readv (a + alignOffset a ALG) ALG] := by
      have h := process_read_trace os (a + alignOffset a ALG) ALG
      rw [hp] at h
      exact h
    rcases r1 with e | d
    · simp [ht1]
    · simp only
      split
      · rcases hp2 : process_write os a
            (List.take (alignOffset a ALG) d ++ v
              ++ List.drop (alignOffset a ALG + v.length) d) with ⟨res, m2, tr2⟩
        have ht2 := process_write_trace os a
            (List.take (alignOffset a ALG) d ++ v
              ++ List.drop (alignOffset a ALG + v.length) d)
        rw [hp2] at ht2
        simp only at ht2
        rcases res with e2 | u <;> simp [ht1, ht2]
      · simp [ht1]
  · simp

/-- C7 (amended): under full-length transfers every successful
`process_load` issues exactly TWO OS-level transfers — the debug
`process_vm_readv` at `addr` followed by the window `process_vm_readv` at
`aligned` — not one; every successful `process_store` issues exactly two
(one `process_vm_readv`, then one `process_vm_writev`), in that order; and
no call of either ever issues more than two. -/
theorem transfer_counts (os : OS) (addr len : Nat) (val : List Nat)
    (hr : os.readResult addr len = Except.ok len) (hlen : len ≤ ALG)
    (hc : addr + len ≤ addr - loadOffset addr + ALG)
    (hr2 : os.readResult (addr - loadOffset addr) ALG = Except.ok ALG)
    (hvlen : val.length ≤ ALG) (hoff : alignOffset addr ALG + val.length ≤ ALG)
    (hra : os.readResult (addr + alignOffset addr ALG) ALG = Except.ok ALG) :
    (∃ bs, (process_load os addr len).1 = Outcome.ok bs) ∧
    (process_load os addr len).2 =
      [Event.readv addr len, Event.readv (addr - loadOffset addr) ALG] ∧
    (process_store os addr val).2.2 =
      [Event.readv (addr + alignOffset addr ALG) ALG, Event.writev addr ALG] ∧
    (∀ a l, (process_load os a l).2.length ≤ 2) ∧
    (∀ a v, (process_store os a v).2.2.length ≤ 2) := by
  have hfull := process_load_full_read os addr len hr hlen hc hr2
  exact ⟨⟨List.take len (List.drop (loadOffset addr)
            (readBytes os.mem (addr - loadOffset addr) ALG)), by rw [hfull]⟩,
    by rw [hfull], store_trace_full os addr val hvlen hoff hra,
    fun a l => process_load_trace_len os a l,
    fun a v => process_store_trace_len os a v⟩

/-- C7 witness: address 12 with a 4-byte value under full transfers — the
load's trace is two readv calls, the store's trace is a readv followed by a
writev. -/
theorem transfer_counts_witness :
    (process_load os1 12 4).2 =
      [Event.readv 12 4, Event.readv (12 - loadOffset 12) ALG] ∧
    (process_store os1 12 [1, 2, 3, 4]).2.2 =
      [Event.readv (12 + alignOffset 12 ALG) ALG, Event.writev 12 ALG] := by
  have h := transfer_counts os1 12 4 [1, 2, 3, 4] rfl (by decide) (by decide) rfl
    (by decide) (by decide) rfl
  exact ⟨h.2.1, h.2.2.1⟩
